import Mathlib

/-!
Verification of the hoot tic-tac-toe / placement-validation core.

Shallow embedding of `logic/src/board.rs`, `logic/src/game.rs` and
`logic/src/validation.rs`.  Machine integers (`u8`, `usize`) are modelled as
`Nat`; a `Vec<u8>` board is a `List Nat`.  Rust panics (out-of-range vector
indexing) are modelled by an outer `Option` layer: `none` means the call does
not return.  Fallible Rust functions returning `Result` are modelled with
`Except` (or an explicit `Option GameError` slot where the source also
mutates state).
-/

/-- Board size constant `BOARD_SIZE : u8 = 3` from `board.rs`. -/
def BOARD_SIZE : Nat := 3

/-- Cell states from `board.rs`: `Empty`, `X`, `O`. -/
inductive Cell where
  | Empty
  | X
  | O
deriving DecidableEq

/-- `Cell::to_u8` from `board.rs`. -/
def Cell.to_u8 : Cell → Nat
  | Cell.Empty => 0
  | Cell.X => 1
  | Cell.O => 2

/-- `Cell::from_u8` from `board.rs`: 1 is X, 2 is O, anything else Empty. -/
def Cell.from_u8 (v : Nat) : Cell :=
  if v = 1 then Cell.X else if v = 2 then Cell.O else Cell.Empty

/-- `Board(pub Vec<u8>)` from `board.rs`: a flat vector of cell bytes. -/
abbrev Board := List Nat

/-- `Board::new_zeroed` from `board.rs`. -/
def Board.new_zeroed (size : Nat) : Board :=
  List.replicate (size * size) 0

/-- `Board::idx` from `board.rs`: row-major index `y*size + x`. -/
def Board.idx (size x y : Nat) : Nat :=
  y * size + x

/-- `Board::get` from `board.rs`.  The source indexes `self.0[idx]`, which
panics when the index is out of range; the panic is the `none` value here. -/
def Board.get? (b : Board) (size x y : Nat) : Option Cell :=
  (b[Board.idx size x y]?).map Cell.from_u8

/-- `Board::set` from `board.rs`.  The source writes `self.0[idx]`, which
panics when the index is out of range; the panic is the `none` value here. -/
def Board.set? (b : Board) (size x y : Nat) (c : Cell) : Option Board :=
  if Board.idx size x y < b.length then
    some (b.set (Board.idx size x y) c.to_u8)
  else
    none

/-- Cells of row `y`, in the order scanned by `check_winner`'s row loop:
the unconditional first read `(0, y)` followed by `x` in `1..size`. -/
def Board.rowLine (size y : Nat) : List (Nat × Nat) :=
  (List.range size).map fun x => (x, y)

/-- Cells of column `x`, in the order scanned by `check_winner`'s column
loop: the unconditional first read `(x, 0)` followed by `y` in `1..size`. -/
def Board.colLine (size x : Nat) : List (Nat × Nat) :=
  (List.range size).map fun y => (x, y)

/-- Cells of the main diagonal exactly as `check_winner` reads them: the
first read `(0, 0)` happens unconditionally (even for `size = 0`), then `i`
ranges over `1..size`. -/
def Board.mainDiagLine (size : Nat) : List (Nat × Nat) :=
  (0, 0) :: (List.range' 1 (size - 1)).map fun i => (i, i)

/-- Cells of the anti-diagonal exactly as `check_winner` reads them: the
first read `(size-1, 0)` happens unconditionally, then `i` ranges over
`1..size`.  For `size = 0` the source's `size - 1` is u8 arithmetic that
cannot be reached without the main-diagonal read panicking first, so the
value used here for that unreachable head is immaterial. -/
def Board.antiDiagLine (size : Nat) : List (Nat × Nat) :=
  (size - 1, 0) :: (List.range' 1 (size - 1)).map fun i => (size - 1 - i, i)

/-- The main diagonal as the spec describes it: cells `(i, i)`. -/
def Board.diag (size : Nat) : List (Nat × Nat) :=
  (List.range size).map fun i => (i, i)

/-- The anti-diagonal as the spec describes it: cells `(size-1-i, i)`. -/
def Board.antiDiag (size : Nat) : List (Nat × Nat) :=
  (List.range size).map fun i => (size - 1 - i, i)

/-- All full lines of the board (rows, columns, the two diagonals), used to
state the winning condition the way the spec words it. -/
def Board.allLines (size : Nat) : List (List (Nat × Nat)) :=
  (List.range size).map (Board.rowLine size) ++
    (List.range size).map (Board.colLine size) ++
    [Board.diag size, Board.antiDiag size]

/-- The lines in the exact order and form `check_winner` scans them:
rows, then columns, then main diagonal, then anti-diagonal; the two
diagonals written with their unconditionally-read head cell. -/
def Board.codeLines (size : Nat) : List (List (Nat × Nat)) :=
  (List.range size).map (Board.rowLine size) ++
    (List.range size).map (Board.colLine size) ++
    [Board.mainDiagLine size, Board.antiDiagLine size]

/-- Inner loop of a line check in `Board::check_winner`: scan the remaining
cells of a line, breaking with `false` at the first cell that differs from
the first cell.  A panicking read propagates as `none`. -/
def Board.scanLine (b : Board) (size : Nat) (first : Cell) :
    List (Nat × Nat) → Option Bool
  | [] => some true
  | p :: ps =>
    match Board.get? b size p.1 p.2 with
    | none => none
    | some c => if c = first then Board.scanLine b size first ps else some false

/-- Line dispatch of `Board::check_winner`: for each line, read its first
cell; if non-Empty, scan the rest; return the first fully-uniform line's
mark, else continue.  A panicking read propagates as `none`. -/
def Board.checkLines (b : Board) (size : Nat) :
    List (List (Nat × Nat)) → Option (Option Cell)
  | [] => some none
  | [] :: rest => Board.checkLines b size rest
  | (p :: ps) :: rest =>
    match Board.get? b size p.1 p.2 with
    | none => none
    | some first =>
      if first = Cell.Empty then Board.checkLines b size rest
      else
        match Board.scanLine b size first ps with
        | none => none
        | some win =>
          if win then some (some first) else Board.checkLines b size rest

/-- `Board::check_winner` from `board.rs`: rows, then columns, then the main
diagonal, then the anti-diagonal; first uniform non-Empty line wins.  The
outer `Option` is the panic layer (`none` = the call does not return). -/
def Board.check_winner (b : Board) (size : Nat) : Option (Option Cell) :=
  Board.checkLines b size (Board.codeLines size)

/-- Cell coordinates in the order `Board::is_full` visits them: `y` outer,
`x` inner. -/
def Board.allCoords (size : Nat) : List (Nat × Nat) :=
  (List.range size).flatMap fun y => (List.range size).map fun x => (x, y)

/-- Scanning loop of `Board::is_full`: return `false` at the first Empty
cell.  A panicking read propagates as `none`. -/
def Board.scanFull (b : Board) (size : Nat) : List (Nat × Nat) → Option Bool
  | [] => some true
  | p :: ps =>
    match Board.get? b size p.1 p.2 with
    | none => none
    | some c => if c = Cell.Empty then some false else Board.scanFull b size ps

/-- `Board::is_full` from `board.rs`. -/
def Board.is_full (b : Board) (size : Nat) : Option Bool :=
  Board.scanFull b size (Board.allCoords size)

/-- Spec-side predicate: `line` is entirely occupied by mark `m`. -/
def Board.lineWins (b : Board) (size : Nat) (m : Cell) (line : List (Nat × Nat)) : Prop :=
  ∀ p ∈ line, Board.get? b size p.1 p.2 = some m

/-- Spec-side predicate: some full row, column, or diagonal consists
entirely of the non-Empty mark `m`. -/
def Board.hasWin (b : Board) (size : Nat) (m : Cell) : Prop :=
  m ≠ Cell.Empty ∧ ∃ line ∈ Board.allLines size, Board.lineWins b size m line

/-- Spec-side predicate: no cell of the board is Empty. -/
def Board.fullSpec (b : Board) (size : Nat) : Prop :=
  ∀ x < size, ∀ y < size, Board.get? b size x y ≠ some Cell.Empty

/-- `PublicKey(pub [u8; 32])` from `players.rs`, its byte array modelled as
a list; the game core only ever compares keys for equality. -/
structure PublicKey where
  key : List Nat
deriving DecidableEq

/-- `GameError` from `lib.rs`. -/
inductive GameError where
  | NotFound (id : String)
  | Invalid (msg : String)
  | Forbidden (msg : String)
  | Finished
deriving DecidableEq

/-- `Match` from `game.rs`. -/
structure Match where
  id : String
  player1 : PublicKey
  player2 : PublicKey
  turn : PublicKey
  board : Board
  winner : Option PublicKey
deriving DecidableEq

/-- `Match::new` from `game.rs`. -/
def Match.new (id : String) (player1 player2 : PublicKey) : Match :=
  { id := id
    player1 := player1
    player2 := player2
    turn := player1
    board := Board.new_zeroed BOARD_SIZE
    winner := none }

/-- `Match::is_player` from `game.rs`. -/
def Match.is_player (m : Match) (player : PublicKey) : Bool :=
  player == m.player1 || player == m.player2

/-- `Match::is_finished` from `game.rs`: `winner.is_some() ||
board.is_full(BOARD_SIZE)` with Rust short-circuit `||` (the board is not
read when a winner is set). -/
def Match.is_finished (m : Match) : Option Bool :=
  if m.winner.isSome then some true else Board.is_full m.board BOARD_SIZE

/-- `Match::get_current_player_symbol` from `game.rs`. -/
def Match.get_current_player_symbol (m : Match) : Cell :=
  if m.turn = m.player1 then Cell.X else Cell.O

/-- `Match::make_move` from `game.rs`, state-passing: the result pairs the
final state of `self` with the `Result` payload (`none` = `Ok(())`,
`some e` = `Err(e)`); the outer `Option` is the panic layer.  Each early
`return Err(..)` in the source leaves `self` untouched, so it returns the
input state here. -/
def Match.make_move (m : Match) (player : PublicKey) (x y : Nat) :
    Option (Match × Option GameError) :=
  match m.is_finished with
  | none => none
  | some fin =>
    if fin then some (m, some GameError.Finished)
    else if !(m.is_player player) then
      some (m, some (GameError.Forbidden "not a player"))
    else if player ≠ m.turn then
      some (m, some (GameError.Forbidden "not your turn"))
    else if BOARD_SIZE ≤ x ∨ BOARD_SIZE ≤ y then
      some (m, some (GameError.Invalid "coordinates out of bounds"))
    else
      match Board.get? m.board BOARD_SIZE x y with
      | none => none
      | some c =>
        if c ≠ Cell.Empty then
          some (m, some (GameError.Invalid "cell already occupied"))
        else
          match Board.set? m.board BOARD_SIZE x y m.get_current_player_symbol with
          | none => none
          | some b2 =>
            match Board.check_winner b2 BOARD_SIZE with
            | none => none
            | some (some _) => some ({ m with board := b2, winner := some player }, none)
            | some none =>
              match Board.is_full b2 BOARD_SIZE with
              | none => none
              | some full =>
                if full then some ({ m with board := b2, winner := none }, none)
                else
                  some ({ m with board := b2, turn := if m.turn = m.player1 then m.player2 else m.player1 }, none)

/-- `Coordinate` from `board.rs`. -/
structure Coordinate where
  x : Nat
  y : Nat
deriving DecidableEq

/-- `[usize; 4]` fleet-composition counts from `validation.rs`, indexed by
ship length: index 0 counts 2-length ships, 1 counts 3-length, 2 counts
4-length, 3 counts 5-length. -/
structure FleetComposition where
  count2 : Nat
  count3 : Nat
  count4 : Nat
  count5 : Nat
deriving DecidableEq

/-- `ValidationInput` from `validation.rs`: the optional-field input bag. -/
structure ValidationInput where
  board : Option Board
  coordinates : Option (List Coordinate)
  size : Option Nat
  ship_length : Option Nat
  fleet_composition : Option FleetComposition
  ships : Option (List (List Coordinate))

/-- `ValidationInput::new` from `validation.rs`. -/
def ValidationInput.new : ValidationInput :=
  { board := none
    coordinates := none
    size := none
    ship_length := none
    fleet_composition := none
    ships := none }

/-- `ValidationInput::with_board` from `validation.rs`. -/
def ValidationInput.with_board (i : ValidationInput) (b : Board) : ValidationInput :=
  { i with board := some b }

/-- `ValidationInput::with_coordinates` from `validation.rs`. -/
def ValidationInput.with_coordinates (i : ValidationInput) (cs : List Coordinate) :
    ValidationInput :=
  { i with coordinates := some cs }

/-- `ValidationInput::with_size` from `validation.rs`. -/
def ValidationInput.with_size (i : ValidationInput) (s : Nat) : ValidationInput :=
  { i with size := some s }

/-- `ValidationInput::with_fleet_composition` from `validation.rs`. -/
def ValidationInput.with_fleet_composition (i : ValidationInput) (c : FleetComposition) :
    ValidationInput :=
  { i with fleet_composition := some c }

/-- A validation strategy's `validate` capability (`validation.rs` trait
object, the `name` method being irrelevant to the claims). -/
abbrev Strategy := ValidationInput → Except GameError Unit

/-- `ValidationContext::validate` from `validation.rs`: run the held
strategies in insertion order, short-circuiting at the first error. -/
def ValidationContext.validate (strategies : List Strategy) (input : ValidationInput) :
    Except GameError Unit :=
  match strategies with
  | [] => Except.ok ()
  | s :: rest =>
    match s input with
    | Except.error e => Except.error e
    | Except.ok _ => ValidationContext.validate rest input

/-- `AdjacencyValidationStrategy::validate` from `validation.rs`: demand the
board and coordinates fields, default the size, then do nothing. -/
def AdjacencyValidationStrategy.validate (input : ValidationInput) :
    Except GameError Unit :=
  match input.board with
  | none => Except.error (GameError.Invalid "board required for adjacency validation")
  | some _ =>
    match input.coordinates with
    | none => Except.error (GameError.Invalid "coordinates required for adjacency validation")
    | some _ =>
      let _size := input.size.getD BOARD_SIZE
      Except.ok ()

/-- `StraightLineValidationStrategy::validate` from `validation.rs`. -/
def StraightLineValidationStrategy.validate (input : ValidationInput) :
    Except GameError Unit :=
  match input.coordinates with
  | none => Except.error (GameError.Invalid "coordinates required for straight line validation")
  | some coordinates =>
    if coordinates.length ≤ 1 then Except.ok ()
    else
      let c0 := coordinates.headD ⟨0, 0⟩
      let same_x := coordinates.all fun c => c.x == c0.x
      let same_y := coordinates.all fun c => c.y == c0.y
      if Bool.xor same_x same_y then Except.ok ()
      else Except.error (GameError.Invalid "ship must be straight (horizontal or vertical)")

/-- `FleetCompositionValidationStrategy::validate` from `validation.rs`:
check buckets in source order, lengths 5, 4, 3, then 2. -/
def FleetCompositionValidationStrategy.validate (input : ValidationInput) :
    Except GameError Unit :=
  match input.fleet_composition with
  | none => Except.error (GameError.Invalid "fleet composition required for composition validation")
  | some composition =>
    if composition.count5 ≠ 1 then
      Except.error (GameError.Invalid "need exactly 1 ship of length 5")
    else if composition.count4 ≠ 1 then
      Except.error (GameError.Invalid "need exactly 1 ship of length 4")
    else if composition.count3 ≠ 2 then
      Except.error (GameError.Invalid "need exactly 2 ships of length 3")
    else if composition.count2 ≠ 1 then
      Except.error (GameError.Invalid "need exactly 1 ship of length 2")
    else Except.ok ()

/-! Helper lemmas about the board algorithms. -/

lemma Board.get?_of_lt {b : Board} {size x y : Nat} (h : Board.idx size x y < b.length) :
    ∃ c, Board.get? b size x y = some c := by
  refine ⟨Cell.from_u8 (b.get ⟨Board.idx size x y, h⟩), ?_⟩
  unfold Board.get?
  rw [List.getElem?_eq_getElem h]
  rfl

lemma Board.idx_lt_of_lt {size x y : Nat} (hx : x < size) (hy : y < size) :
    Board.idx size x y < size * size := by
  unfold Board.idx
  calc y * size + x < y * size + size := by omega
    _ = (y + 1) * size := by ring
    _ ≤ size * size := Nat.mul_le_mul_right _ hy

lemma Board.scanLine_sound {b : Board} {size : Nat} (first : Cell)
    (ps : List (Nat × Nat))
    (hb : ∀ p ∈ ps, Board.idx size p.1 p.2 < b.length) :
    ∃ w, Board.scanLine b size first ps = some w ∧
      (w = true ↔ ∀ p ∈ ps, Board.get? b size p.1 p.2 = some first) := by
  induction ps with
  | nil => exact ⟨true, rfl, by simp⟩
  | cons p ps ih =>
    obtain ⟨c, hc⟩ := Board.get?_of_lt (hb p (by simp))
    by_cases hcf : c = first
    · obtain ⟨w, hw, hiff⟩ := ih fun q hq => hb q (by simp [hq])
      refine ⟨w, ?_, ?_⟩
      · simp only [Board.scanLine, hc, hcf, if_pos rfl]
        exact hw
      · rw [hiff]
        subst hcf
        simp [List.forall_mem_cons, hc]
    · refine ⟨false, ?_, ?_⟩
      · simp only [Board.scanLine, hc]
        simp [hcf]
      · simp only [Bool.false_eq_true, false_iff]
        intro hall
        exact hcf (Option.some.inj ((hall p (by simp)).symm.trans hc)).symm

lemma Board.checkLines_sound {b : Board} {size : Nat} (L : List (List (Nat × Nat)))
    (hb : ∀ line ∈ L, ∀ p ∈ line, Board.idx size p.1 p.2 < b.length)
    (hne : ∀ line ∈ L, line ≠ []) :
    ∃ r, Board.checkLines b size L = some r ∧
      (∀ m, r = some m → m ≠ Cell.Empty ∧ ∃ line ∈ L, Board.lineWins b size m line) ∧
      (r = none ↔ ∀ line ∈ L, ∀ m, m ≠ Cell.Empty → ¬ Board.lineWins b size m line) := by
  induction L with
  | nil => exact ⟨none, rfl, by simp, by simp⟩
  | cons line rest ih =>
    obtain ⟨p, ps, rfl⟩ : ∃ p ps, line = p :: ps := by
      cases line with
      | nil => exact absurd rfl (hne [] (by simp))
      | cons p ps => exact ⟨p, ps, rfl⟩
    have hbrest : ∀ l ∈ rest, ∀ q ∈ l, Board.idx size q.1 q.2 < b.length :=
      fun l hl => hb l (by simp [hl])
    have hnerest : ∀ l ∈ rest, l ≠ [] := fun l hl => hne l (by simp [hl])
    obtain ⟨first, hfirst⟩ := Board.get?_of_lt (hb (p :: ps) (by simp) p (by simp))
    by_cases hE : first = Cell.Empty
    · obtain ⟨r, hr, h1, h2⟩ := ih hbrest hnerest
      refine ⟨r, ?_, ?_, ?_⟩
      · simp only [Board.checkLines, hfirst, hE, if_pos rfl]
        exact hr
      · intro m hm
        obtain ⟨hme, l, hl, hw⟩ := h1 m hm
        exact ⟨hme, l, by simp [hl], hw⟩
      · rw [h2]
        constructor
        · intro h l hl m hme hw
          rcases (List.mem_cons.mp hl) with hl | hl
          · subst hl
            have := hw p (by simp)
            rw [hfirst] at this
            exact hme (Option.some.inj this ▸ hE ▸ rfl)
          · exact h l hl m hme hw
        · intro h l hl m hme hw
          exact h l (by simp [hl]) m hme hw
    · obtain ⟨w, hw, hwiff⟩ :=
        Board.scanLine_sound first ps fun q hq => hb (p :: ps) (by simp) q (by simp [hq])
      by_cases hwt : w = true
      · have hwinhead : Board.lineWins b size first (p :: ps) := by
          intro q hq
          rcases List.mem_cons.mp hq with hq | hq
          · subst hq; exact hfirst
          · exact hwiff.mp hwt q hq
        refine ⟨some first, ?_, ?_, ?_⟩
        · simp only [Board.checkLines, hfirst, hE, if_neg hE, hw, hwt, if_pos rfl]
          simp
        · intro m hm
          obtain rfl : first = m := Option.some.inj hm
          exact ⟨hE, p :: ps, by simp, hwinhead⟩
        · constructor
          · intro h; simp at h
          · intro h; exact absurd hwinhead (h (p :: ps) (by simp) first hE)
      · have hwf : w = false := by
          cases w with
          | true => exact absurd rfl hwt
          | false => rfl
        subst hwf
        obtain ⟨r, hr, h1, h2⟩ := ih hbrest hnerest
        have hheadnowin : ∀ m, m ≠ Cell.Empty → ¬ Board.lineWins b size m (p :: ps) := by
          intro m hme hwin
          have hpm := hwin p (by simp)
          rw [hfirst] at hpm
          obtain rfl : first = m := Option.some.inj hpm
          exact hwt (hwiff.mpr fun q hq => hwin q (by simp [hq]))
        refine ⟨r, ?_, ?_, ?_⟩
        · simp only [Board.checkLines, hfirst, hE, if_neg hE, hw]
          simpa using hr
        · intro m hm
          obtain ⟨hme, l, hl, hwin⟩ := h1 m hm
          exact ⟨hme, l, by simp [hl], hwin⟩
        · rw [h2]
          constructor
          · intro h l hl m hme hwin
            rcases List.mem_cons.mp hl with hl | hl
            · subst hl; exact hheadnowin m hme hwin
            · exact h l hl m hme hwin
          · intro h l hl m hme hwin
            exact h l (by simp [hl]) m hme hwin

lemma Board.range_eq_cons {size : Nat} (h : 1 ≤ size) :
    List.range size = 0 :: List.range' 1 (size - 1) := by
  obtain ⟨k, rfl⟩ : ∃ k, size = k + 1 := ⟨size - 1, by omega⟩
  rw [List.range_eq_range', List.range'_succ]
  simp

lemma Board.mainDiagLine_eq {size : Nat} (h : 1 ≤ size) :
    Board.mainDiagLine size = Board.diag size := by
  unfold Board.mainDiagLine Board.diag
  rw [Board.range_eq_cons h]
  simp

lemma Board.antiDiagLine_eq {size : Nat} (h : 1 ≤ size) :
    Board.antiDiagLine size = Board.antiDiag size := by
  unfold Board.antiDiagLine Board.antiDiag
  rw [Board.range_eq_cons h]
  simp

lemma Board.codeLines_eq {size : Nat} (h : 1 ≤ size) :
    Board.codeLines size = Board.allLines size := by
  unfold Board.codeLines Board.allLines
  rw [Board.mainDiagLine_eq h, Board.antiDiagLine_eq h]

lemma Board.allLines_ne {size : Nat} (h : 1 ≤ size) :
    ∀ line ∈ Board.allLines size, line ≠ [] := by
  intro line hline
  simp only [Board.allLines, List.mem_append, List.mem_map, List.mem_range,
    List.mem_cons, List.mem_singleton] at hline
  have hr : List.range size ≠ [] := by
    simp [List.range_eq_nil]
    omega
  rcases hline with (⟨y, _, rfl⟩ | ⟨x, _, rfl⟩) | hd | ha
  · simp [Board.rowLine, hr]
  · simp [Board.colLine, hr]
  · subst hd; simp [Board.diag, hr]
  · rcases ha with ha | ha
    · subst ha; simp [Board.antiDiag, hr]
    · exact absurd ha (by simp)

lemma Board.allLines_coord_lt {size : Nat} :
    ∀ line ∈ Board.allLines size, ∀ p ∈ line, p.1 < size ∧ p.2 < size := by
  intro line hline p hp
  simp only [Board.allLines, List.mem_append, List.mem_map, List.mem_range,
    List.mem_cons, List.mem_singleton] at hline
  rcases hline with (⟨y, hy, rfl⟩ | ⟨x, hx, rfl⟩) | hd | ha
  · simp only [Board.rowLine, List.mem_map, List.mem_range] at hp
    obtain ⟨x, hx, rfl⟩ := hp
    exact ⟨hx, hy⟩
  · simp only [Board.colLine, List.mem_map, List.mem_range] at hp
    obtain ⟨y, hy, rfl⟩ := hp
    exact ⟨hx, hy⟩
  · subst hd
    simp only [Board.diag, List.mem_map, List.mem_range] at hp
    obtain ⟨i, hi, rfl⟩ := hp
    exact ⟨hi, hi⟩
  · rcases ha with ha | ha
    · subst ha
      simp only [Board.antiDiag, List.mem_map, List.mem_range] at hp
      obtain ⟨i, hi, rfl⟩ := hp
      exact ⟨by omega, hi⟩
    · exact absurd ha (by simp)

lemma Board.check_winner_spec {b : Board} {size : Nat} (h1 : 1 ≤ size)
    (h2 : b.length = size * size) :
    ∃ r, Board.check_winner b size = some r ∧
      (∀ m, r = some m → Board.hasWin b size m) ∧
      (r = none ↔ ∀ m, ¬ Board.hasWin b size m) := by
  have hb : ∀ line ∈ Board.allLines size, ∀ p ∈ line,
      Board.idx size p.1 p.2 < b.length := by
    intro line hl p hp
    obtain ⟨hx, hy⟩ := Board.allLines_coord_lt line hl p hp
    rw [h2]
    exact Board.idx_lt_of_lt hx hy
  obtain ⟨r, hr, hsome, hnone⟩ :=
    Board.checkLines_sound (Board.allLines size) hb (Board.allLines_ne h1)
  refine ⟨r, ?_, ?_, ?_⟩
  · unfold Board.check_winner
    rw [Board.codeLines_eq h1]
    exact hr
  · intro m hm
    exact hsome m hm
  · rw [hnone]
    unfold Board.hasWin
    constructor
    · rintro h m ⟨hme, line, hl, hw⟩
      exact h line hl m hme hw
    · intro h line hl m hme hw
      exact h m ⟨hme, line, hl, hw⟩

lemma Board.scanFull_sound {b : Board} {size : Nat} (ps : List (Nat × Nat))
    (hb : ∀ p ∈ ps, Board.idx size p.1 p.2 < b.length) :
    ∃ w, Board.scanFull b size ps = some w ∧
      (w = true ↔ ∀ p ∈ ps, Board.get? b size p.1 p.2 ≠ some Cell.Empty) := by
  induction ps with
  | nil => exact ⟨true, rfl, by simp⟩
  | cons p ps ih =>
    obtain ⟨c, hc⟩ := Board.get?_of_lt (hb p (by simp))
    by_cases hcE : c = Cell.Empty
    · refine ⟨false, ?_, ?_⟩
      · simp only [Board.scanFull, hc, hcE, if_pos rfl]
        simp
      · simp only [Bool.false_eq_true, false_iff]
        intro hall
        exact hall p (by simp) (by rw [hc, hcE])
    · obtain ⟨w, hw, hiff⟩ := ih fun q hq => hb q (by simp [hq])
      refine ⟨w, ?_, ?_⟩
      · simp only [Board.scanFull, hc, hcE, if_neg hcE]
        exact hw
      · rw [hiff]
        simp only [List.forall_mem_cons, hc]
        constructor
        · intro h
          refine ⟨?_, h⟩
          intro hbad
          exact hcE (Option.some.inj hbad)
        · intro h
          exact h.2

lemma Board.mem_allCoords {size : Nat} {p : Nat × Nat} :
    p ∈ Board.allCoords size ↔ p.1 < size ∧ p.2 < size := by
  unfold Board.allCoords
  simp only [List.mem_flatMap, List.mem_map, List.mem_range]
  constructor
  · rintro ⟨y, hy, x, hx, rfl⟩
    exact ⟨hx, hy⟩
  · rintro ⟨h1, h2⟩
    exact ⟨p.2, h2, p.1, h1, rfl⟩

lemma Board.is_full_spec {b : Board} {size : Nat} (h2 : b.length = size * size) :
    ∃ w, Board.is_full b size = some w ∧ (w = true ↔ Board.fullSpec b size) := by
  have hb : ∀ p ∈ Board.allCoords size, Board.idx size p.1 p.2 < b.length := by
    intro p hp
    obtain ⟨h1, hp2⟩ := Board.mem_allCoords.mp hp
    rw [h2]
    exact Board.idx_lt_of_lt h1 hp2
  obtain ⟨w, hw, hiff⟩ := Board.scanFull_sound (Board.allCoords size) hb
  refine ⟨w, hw, ?_⟩
  rw [hiff]
  unfold Board.fullSpec
  constructor
  · intro h x hx y hy
    exact h (x, y) (Board.mem_allCoords.mpr ⟨hx, hy⟩)
  · intro h p hp
    obtain ⟨h1, hp2⟩ := Board.mem_allCoords.mp hp
    exact h p.1 h1 p.2 hp2

@[simp] lemma BOARD_SIZE_eq : BOARD_SIZE = 3 := rfl

/-- C1: for every board size N ≥ 1 and every board stored as a length-N²
cell vector with arbitrary cell assignment, `check_winner` returns (without
any out-of-range access) a result `r`; any mark it returns occupies a fully
uniform non-Empty row, column, or full-length diagonal; and it returns none
exactly when no mark occupies such a line. -/
theorem C1_check_winner_iff (size : Nat) (b : Board) (h1 : 1 ≤ size)
    (h2 : b.length = size * size) :
    ∃ r, Board.check_winner b size = some r ∧
      (∀ m, r = some m → Board.hasWin b size m) ∧
      (r = none ↔ ∀ m, ¬ Board.hasWin b size m) :=
  Board.check_winner_spec h1 h2

/-- Witness for C1 at size 3 on a board with an X top row. -/
theorem C1_check_winner_iff_witness :
    1 ≤ 3 ∧ ([1, 1, 1, 0, 2, 2, 0, 0, 0] : Board).length = 3 * 3 ∧
      (∃ r, Board.check_winner ([1, 1, 1, 0, 2, 2, 0, 0, 0] : Board) 3 = some r ∧
        (∀ m, r = some m → Board.hasWin ([1, 1, 1, 0, 2, 2, 0, 0, 0] : Board) 3 m) ∧
        (r = none ↔ ∀ m, ¬ Board.hasWin ([1, 1, 1, 0, 2, 2, 0, 0, 0] : Board) 3 m)) :=
  ⟨by decide, by decide,
    C1_check_winner_iff 3 [1, 1, 1, 0, 2, 2, 0, 0, 0] (by decide) (by decide)⟩

/-! Helper lemmas about `Match`. -/

lemma Match.is_player_iff {m : Match} {p : PublicKey} :
    m.is_player p = true ↔ (p = m.player1 ∨ p = m.player2) := by
  simp [Match.is_player]

lemma Match.is_finished_spec {m : Match} (h : m.board.length = 9) :
    ∃ fin, m.is_finished = some fin ∧
      (fin = true ↔ (m.winner ≠ none ∨ Board.fullSpec m.board 3)) := by
  unfold Match.is_finished
  by_cases hw : m.winner.isSome
  · refine ⟨true, by simp [hw], ?_⟩
    simp only [true_iff]
    exact Or.inl (Option.isSome_iff_ne_none.mp hw)
  · obtain ⟨w, hwf, hiff⟩ :=
      @Board.is_full_spec m.board 3 (by rw [h])
    refine ⟨w, ?_, ?_⟩
    · simp only [hw, if_neg]
      simpa using hwf
    · rw [hiff]
      have : m.winner = none := Option.not_isSome_iff_eq_none.mp hw
      simp [this]

lemma Match.winner_none_of_not_finished {m : Match} {fin : Bool}
    (heq : m.is_finished = some fin) (hf : fin = false) : m.winner = none := by
  by_contra hne
  have hs : m.winner.isSome := Option.ne_none_iff_isSome.mp hne
  unfold Match.is_finished at heq
  rw [if_pos hs] at heq
  rw [hf] at heq
  exact Bool.noConfusion (Option.some.inj heq)

/-- C2: every successful `make_move(player, x, y)` on a match with a
length-9 board and `turn` among the participants writes the acting player's
mark at `(x, y)` and then performs exactly one of three transitions: with a
winning line on the new board the winner becomes the player and the turn
stays; with a full non-winning board the winner stays unset and the turn
stays; otherwise the winner stays unset and the turn becomes the other
participant. -/
theorem C2_make_move_success (m m2 : Match) (player : PublicKey) (x y : Nat)
    (hlen : m.board.length = 9)
    (hturn : m.turn = m.player1 ∨ m.turn = m.player2)
    (hs : m.make_move player x y = some (m2, none)) :
    x < 3 ∧ y < 3 ∧
      m2.board = m.board.set (Board.idx 3 x y)
        (Cell.to_u8 (if player = m.player1 then Cell.X else Cell.O)) ∧
      ((∃ c, Board.hasWin m2.board 3 c) → m2.winner = some player ∧ m2.turn = m.turn) ∧
      ((¬ ∃ c, Board.hasWin m2.board 3 c) → Board.fullSpec m2.board 3 →
        m2.winner = none ∧ m2.turn = m.turn) ∧
      ((¬ ∃ c, Board.hasWin m2.board 3 c) → ¬ Board.fullSpec m2.board 3 →
        m2.winner = none ∧
          m2.turn = (if m.turn = m.player1 then m.player2 else m.player1) ∧
          (m.player1 ≠ m.player2 → m2.turn ≠ player)) := by
  unfold Match.make_move at hs
  split at hs
  · exact absurd hs (by simp)
  next fin heq =>
  split at hs
  · simp at hs
  next hfin =>
  split at hs
  · simp at hs
  next hplayer =>
  split at hs
  · simp at hs
  next hturn_ne =>
  split at hs
  · simp at hs
  next hxy =>
  split at hs
  · exact absurd hs (by simp)
  next c hc =>
  split at hs
  · simp at hs
  next hcE =>
  split at hs
  · exact absurd hs (by simp)
  next b2 hset =>
  have hx : x < 3 := by
    simp only [BOARD_SIZE_eq, not_or, not_le] at hxy
    exact hxy.1
  have hy : y < 3 := by
    simp only [BOARD_SIZE_eq, not_or, not_le] at hxy
    exact hxy.2
  have hpt : player = m.turn := not_not.mp hturn_ne
  have hidx : Board.idx BOARD_SIZE x y < m.board.length := by
    rw [hlen]
    simp only [Board.idx, BOARD_SIZE_eq]
    omega
  have hb2 : b2 = m.board.set (Board.idx BOARD_SIZE x y)
      (Cell.to_u8 m.get_current_player_symbol) := by
    unfold Board.set? at hset
    rw [if_pos hidx] at hset
    exact (Option.some.inj hset).symm
  have hb2len : b2.length = 9 := by
    rw [hb2, List.length_set, hlen]
  have hboard_goal : b2 = m.board.set (Board.idx 3 x y)
      (Cell.to_u8 (if player = m.player1 then Cell.X else Cell.O)) := by
    rw [hb2, hpt]
    simp only [Match.get_current_player_symbol, BOARD_SIZE_eq]
  obtain ⟨r, hr, hrsome, hrnone⟩ :=
    @Board.check_winner_spec b2 3 (by decide) (by omega)
  split at hs
  · exact absurd hs (by simp)
  next w hw =>
    -- winning branch
    simp only [BOARD_SIZE_eq] at hw
    obtain rfl : r = some w := Option.some.inj (hr.symm.trans hw)
    have hwin : Board.hasWin b2 3 w := hrsome w rfl
    simp only [Option.some.injEq, Prod.mk.injEq, and_true] at hs
    subst hs
    refine ⟨hx, hy, hboard_goal, fun _ => ⟨rfl, rfl⟩, ?_, ?_⟩
    · intro hno _
      exact absurd ⟨w, hwin⟩ hno
    · intro hno _
      exact absurd ⟨w, hwin⟩ hno
  next hw =>
    -- no winner: r = none
    simp only [BOARD_SIZE_eq] at hw
    obtain rfl : r = none := Option.some.inj (hr.symm.trans hw)
    have hnowin : ∀ c, ¬ Board.hasWin b2 3 c := hrnone.mp rfl
    obtain ⟨wf, hwf, hwiff⟩ :=
      @Board.is_full_spec b2 3 (by omega)
    split at hs
    · exact absurd hs (by simp)
    next full hfull =>
    simp only [BOARD_SIZE_eq] at hfull
    obtain rfl : wf = full := Option.some.inj (hwf.symm.trans hfull)
    split at hs
    next hfullt =>
      -- tie branch
      have hfullspec : Board.fullSpec b2 3 := hwiff.mp hfullt
      simp only [Option.some.injEq, Prod.mk.injEq, and_true] at hs
      subst hs
      refine ⟨hx, hy, hboard_goal, ?_, fun _ _ => ⟨rfl, rfl⟩, ?_⟩
      · rintro ⟨c, hcwin⟩
        exact absurd hcwin (hnowin c)
      · intro _ hnf
        exact absurd hfullspec hnf
    next hfullf =>
      -- continue branch
      have hnotfull : ¬ Board.fullSpec b2 3 := by
        intro hfs
        exact hfullf (hwiff.mpr hfs)
      have hwnone : m.winner = none :=
        Match.winner_none_of_not_finished heq (by
          cases fin with
          | true => exact absurd rfl hfin
          | false => rfl)
      simp only [Option.some.injEq, Prod.mk.injEq, and_true] at hs
      subst hs
      refine ⟨hx, hy, hboard_goal, ?_, ?_, ?_⟩
      · rintro ⟨c, hcwin⟩
        exact absurd hcwin (hnowin c)
      · intro _ hfs
        exact absurd hfs hnotfull
      · intro _ _
        refine ⟨hwnone, rfl, ?_⟩
        intro hp12
        rcases hturn with ht1 | ht2
        · rw [hpt, ht1]
          simp only [ht1, if_pos rfl]
          intro hbad
          exact hp12 hbad.symm
        · by_cases h1 : m.turn = m.player1
          · rw [hpt, h1]
            simp only [h1, if_pos rfl]
            intro hbad
            exact hp12 hbad.symm
          · simp only [if_neg h1]
            rw [hpt, ht2]
            intro hbad
            exact hp12 hbad

/-- Concrete fresh match used by witnesses. -/
def mW : Match := Match.new "m" ⟨[1]⟩ ⟨[2]⟩

/-- Concrete state after `mW`'s first player moves at (0, 0). -/
def mW2 : Match := { mW with board := [1, 0, 0, 0, 0, 0, 0, 0, 0], turn := ⟨[2]⟩ }

/-- Witness for C2: the first player of a fresh match moves at (0, 0). -/
theorem C2_make_move_success_witness :
    mW.board.length = 9 ∧ (mW.turn = mW.player1 ∨ mW.turn = mW.player2) ∧
    mW.make_move ⟨[1]⟩ 0 0 = some (mW2, none) ∧
    (0 < 3 ∧ 0 < 3 ∧
      mW2.board = mW.board.set (Board.idx 3 0 0)
        (Cell.to_u8 (if (⟨[1]⟩ : PublicKey) = mW.player1 then Cell.X else Cell.O)) ∧
      ((∃ c, Board.hasWin mW2.board 3 c) → mW2.winner = some ⟨[1]⟩ ∧ mW2.turn = mW.turn) ∧
      ((¬ ∃ c, Board.hasWin mW2.board 3 c) → Board.fullSpec mW2.board 3 →
        mW2.winner = none ∧ mW2.turn = mW.turn) ∧
      ((¬ ∃ c, Board.hasWin mW2.board 3 c) → ¬ Board.fullSpec mW2.board 3 →
        mW2.winner = none ∧
          mW2.turn = (if mW.turn = mW.player1 then mW.player2 else mW.player1) ∧
          (mW.player1 ≠ mW.player2 → mW2.turn ≠ ⟨[1]⟩))) :=
  ⟨by decide, by decide, by decide,
    C2_make_move_success mW mW2 ⟨[1]⟩ 0 0 (by decide) (by decide) (by decide)⟩

/-- C3: a `make_move` call that returns an error (any kind) leaves the
match's board, turn and winner exactly as they were. -/
theorem C3_rejected_move_unchanged (m m2 : Match) (player : PublicKey) (x y : Nat)
    (e : GameError) (hs : m.make_move player x y = some (m2, some e)) :
    m2.board = m.board ∧ m2.turn = m.turn ∧ m2.winner = m.winner := by
  unfold Match.make_move at hs
  split at hs
  · exact absurd hs (by simp)
  next fin heq =>
  split at hs
  · simp only [Option.some.injEq, Prod.mk.injEq] at hs
    obtain ⟨rfl, -⟩ := hs
    exact ⟨rfl, rfl, rfl⟩
  next hfin =>
  split at hs
  · simp only [Option.some.injEq, Prod.mk.injEq] at hs
    obtain ⟨rfl, -⟩ := hs
    exact ⟨rfl, rfl, rfl⟩
  next hplayer =>
  split at hs
  · simp only [Option.some.injEq, Prod.mk.injEq] at hs
    obtain ⟨rfl, -⟩ := hs
    exact ⟨rfl, rfl, rfl⟩
  next hturn_ne =>
  split at hs
  · simp only [Option.some.injEq, Prod.mk.injEq] at hs
    obtain ⟨rfl, -⟩ := hs
    exact ⟨rfl, rfl, rfl⟩
  next hxy =>
  split at hs
  · exact absurd hs (by simp)
  next c hc =>
  split at hs
  · simp only [Option.some.injEq, Prod.mk.injEq] at hs
    obtain ⟨rfl, -⟩ := hs
    exact ⟨rfl, rfl, rfl⟩
  next hcE =>
  split at hs
  · exact absurd hs (by simp)
  next b2 hset =>
  split at hs
  · exact absurd hs (by simp)
  next w hw => simp at hs
  next hw =>
  split at hs
  · exact absurd hs (by simp)
  next full hfull =>
  split at hs
  · simp at hs
  · simp at hs

/-- Concrete finished match used by witnesses. -/
def mWF : Match := { Match.new "w" ⟨[1]⟩ ⟨[2]⟩ with winner := some ⟨[1]⟩ }

/-- Witness for C3: moving on a finished match is rejected and changes
nothing. -/
theorem C3_rejected_move_unchanged_witness :
    mWF.make_move ⟨[1]⟩ 0 0 = some (mWF, some GameError.Finished) ∧
    (mWF.board = mWF.board ∧ mWF.turn = mWF.turn ∧ mWF.winner = mWF.winner) :=
  ⟨by decide,
    C3_rejected_move_unchanged mWF mWF ⟨[1]⟩ 0 0 GameError.Finished (by decide)⟩

/-- C4: `make_move` rejects in exactly this precedence order with exactly
these error kinds — Finished on a terminal match (winner set or board
full), else Forbidden for a non-participant, else Forbidden when it is not
the caller's turn, else Invalid for coordinates outside [0, 3), else
Invalid for an occupied cell — and succeeds otherwise.  In particular a
non-participant moving on a terminal match gets Finished. -/
theorem C4_error_precedence (m : Match) (player : PublicKey) (x y : Nat)
    (hlen : m.board.length = 9) :
    ((m.winner ≠ none ∨ Board.fullSpec m.board 3) →
      m.make_move player x y = some (m, some GameError.Finished)) ∧
    (¬(m.winner ≠ none ∨ Board.fullSpec m.board 3) →
      ¬(player = m.player1 ∨ player = m.player2) →
      m.make_move player x y = some (m, some (GameError.Forbidden "not a player"))) ∧
    (¬(m.winner ≠ none ∨ Board.fullSpec m.board 3) →
      (player = m.player1 ∨ player = m.player2) → player ≠ m.turn →
      m.make_move player x y = some (m, some (GameError.Forbidden "not your turn"))) ∧
    (¬(m.winner ≠ none ∨ Board.fullSpec m.board 3) →
      (player = m.player1 ∨ player = m.player2) → player = m.turn →
      (3 ≤ x ∨ 3 ≤ y) →
      m.make_move player x y = some (m, some (GameError.Invalid "coordinates out of bounds"))) ∧
    (¬(m.winner ≠ none ∨ Board.fullSpec m.board 3) →
      (player = m.player1 ∨ player = m.player2) → player = m.turn →
      x < 3 → y < 3 → Board.get? m.board 3 x y ≠ some Cell.Empty →
      m.make_move player x y = some (m, some (GameError.Invalid "cell already occupied"))) ∧
    (¬(m.winner ≠ none ∨ Board.fullSpec m.board 3) →
      (player = m.player1 ∨ player = m.player2) → player = m.turn →
      x < 3 → y < 3 → Board.get? m.board 3 x y = some Cell.Empty →
      ∃ m2, m.make_move player x y = some (m2, none)) := by
  obtain ⟨fin, hfin, hfiniff⟩ := Match.is_finished_spec hlen
  refine ⟨?_, ?_, ?_, ?_, ?_, ?_⟩
  · intro hterm
    have : fin = true := hfiniff.mpr hterm
    subst this
    unfold Match.make_move
    rw [hfin]
    rfl
  · intro hterm hpart
    have hff : fin = false := by
      cases fin with
      | true => exact absurd (hfiniff.mp rfl) hterm
      | false => rfl
    subst hff
    have hpl : m.is_player player = false := by
      rw [← Bool.not_eq_true]
      intro h
      exact hpart (Match.is_player_iff.mp h)
    unfold Match.make_move
    rw [hfin]
    simp [hpl]
  · intro hterm hpart hne
    have hff : fin = false := by
      cases fin with
      | true => exact absurd (hfiniff.mp rfl) hterm
      | false => rfl
    subst hff
    have hpl : m.is_player player = true := Match.is_player_iff.mpr hpart
    unfold Match.make_move
    rw [hfin]
    simp [hpl, hne]
  · intro hterm hpart hpt hxy
    have hff : fin = false := by
      cases fin with
      | true => exact absurd (hfiniff.mp rfl) hterm
      | false => rfl
    subst hff
    have hpl : m.is_player player = true := Match.is_player_iff.mpr hpart
    have hxyb : BOARD_SIZE ≤ x ∨ BOARD_SIZE ≤ y := by
      simpa [BOARD_SIZE_eq] using hxy
    unfold Match.make_move
    rw [hfin]
    simp only [hpl, Bool.not_true, Bool.false_eq_true, if_false,
      if_neg (show ¬ player ≠ m.turn from by simp [hpt]), if_pos hxyb]
  · intro hterm hpart hpt hx hy hocc
    have hff : fin = false := by
      cases fin with
      | true => exact absurd (hfiniff.mp rfl) hterm
      | false => rfl
    subst hff
    have hpl : m.is_player player = true := Match.is_player_iff.mpr hpart
    have hxy : ¬(BOARD_SIZE ≤ x ∨ BOARD_SIZE ≤ y) := by
      simp only [BOARD_SIZE_eq, not_or, not_le]
      exact ⟨hx, hy⟩
    have hidx : Board.idx BOARD_SIZE x y < m.board.length := by
      rw [hlen]
      simp only [Board.idx, BOARD_SIZE_eq]
      omega
    obtain ⟨c, hc⟩ := Board.get?_of_lt hidx
    have hcne : c ≠ Cell.Empty := by
      intro hceq
      subst hceq
      apply hocc
      simpa [BOARD_SIZE_eq] using hc
    unfold Match.make_move
    rw [hfin]
    simp only [Bool.false_eq_true, if_false, hpl, Bool.not_true,
      if_neg (by simp [hpt] : ¬ player ≠ m.turn), if_neg hxy, hc]
    simp [hcne]
  · intro hterm hpart hpt hx hy hemp
    have hff : fin = false := by
      cases fin with
      | true => exact absurd (hfiniff.mp rfl) hterm
      | false => rfl
    subst hff
    have hpl : m.is_player player = true := Match.is_player_iff.mpr hpart
    have hxy : ¬(BOARD_SIZE ≤ x ∨ BOARD_SIZE ≤ y) := by
      simp only [BOARD_SIZE_eq, not_or, not_le]
      exact ⟨hx, hy⟩
    have hidx : Board.idx BOARD_SIZE x y < m.board.length := by
      rw [hlen]
      simp only [Board.idx, BOARD_SIZE_eq]
      omega
    have hc : Board.get? m.board BOARD_SIZE x y = some Cell.Empty := by
      rw [BOARD_SIZE_eq]
      exact hemp
    have hset : Board.set? m.board BOARD_SIZE x y m.get_current_player_symbol =
        some (m.board.set (Board.idx BOARD_SIZE x y)
          (Cell.to_u8 m.get_current_player_symbol)) := by
      unfold Board.set?
      rw [if_pos hidx]
    have hb2len : (m.board.set (Board.idx BOARD_SIZE x y)
        (Cell.to_u8 m.get_current_player_symbol)).length = 3 * 3 := by
      rw [List.length_set, hlen]
    obtain ⟨r, hr, -, -⟩ :=
      @Board.check_winner_spec (m.board.set (Board.idx BOARD_SIZE x y)
        (Cell.to_u8 m.get_current_player_symbol)) 3 (by decide) hb2len
    obtain ⟨wf, hwf, -⟩ :=
      @Board.is_full_spec (m.board.set (Board.idx BOARD_SIZE x y)
        (Cell.to_u8 m.get_current_player_symbol)) 3 hb2len
    unfold Match.make_move
    rw [hfin]
    simp only [Bool.false_eq_true, if_false, hpl, Bool.not_true,
      if_neg (by simp [hpt] : ¬ player ≠ m.turn), if_neg hxy, hc,
      if_neg (by simp : ¬ (Cell.Empty ≠ Cell.Empty)), hset]
    rw [show Board.check_winner (m.board.set (Board.idx BOARD_SIZE x y)
      (Cell.to_u8 m.get_current_player_symbol)) BOARD_SIZE = some r from hr]
    cases r with
    | some w => exact ⟨_, rfl⟩
    | none =>
      rw [show Board.is_full (m.board.set (Board.idx BOARD_SIZE x y)
        (Cell.to_u8 m.get_current_player_symbol)) BOARD_SIZE = some wf from hwf]
      cases wf with
      | true => exact ⟨_, rfl⟩
      | false => exact ⟨_, rfl⟩

/-- Witness for C4: the precedence characterization instantiated on a
fresh match, a non-participant caller, and cell (0, 0). -/
theorem C4_error_precedence_witness :
    mW.board.length = 9 ∧
    (((mW.winner ≠ none ∨ Board.fullSpec mW.board 3) →
      mW.make_move ⟨[9]⟩ 0 0 = some (mW, some GameError.Finished)) ∧
    (¬(mW.winner ≠ none ∨ Board.fullSpec mW.board 3) →
      ¬((⟨[9]⟩ : PublicKey) = mW.player1 ∨ (⟨[9]⟩ : PublicKey) = mW.player2) →
      mW.make_move ⟨[9]⟩ 0 0 = some (mW, some (GameError.Forbidden "not a player"))) ∧
    (¬(mW.winner ≠ none ∨ Board.fullSpec mW.board 3) →
      ((⟨[9]⟩ : PublicKey) = mW.player1 ∨ (⟨[9]⟩ : PublicKey) = mW.player2) →
      (⟨[9]⟩ : PublicKey) ≠ mW.turn →
      mW.make_move ⟨[9]⟩ 0 0 = some (mW, some (GameError.Forbidden "not your turn"))) ∧
    (¬(mW.winner ≠ none ∨ Board.fullSpec mW.board 3) →
      ((⟨[9]⟩ : PublicKey) = mW.player1 ∨ (⟨[9]⟩ : PublicKey) = mW.player2) →
      (⟨[9]⟩ : PublicKey) = mW.turn →
      ((3 : Nat) ≤ 0 ∨ (3 : Nat) ≤ 0) →
      mW.make_move ⟨[9]⟩ 0 0 = some (mW, some (GameError.Invalid "coordinates out of bounds"))) ∧
    (¬(mW.winner ≠ none ∨ Board.fullSpec mW.board 3) →
      ((⟨[9]⟩ : PublicKey) = mW.player1 ∨ (⟨[9]⟩ : PublicKey) = mW.player2) →
      (⟨[9]⟩ : PublicKey) = mW.turn →
      (0 : Nat) < 3 → (0 : Nat) < 3 → Board.get? mW.board 3 0 0 ≠ some Cell.Empty →
      mW.make_move ⟨[9]⟩ 0 0 = some (mW, some (GameError.Invalid "cell already occupied"))) ∧
    (¬(mW.winner ≠ none ∨ Board.fullSpec mW.board 3) →
      ((⟨[9]⟩ : PublicKey) = mW.player1 ∨ (⟨[9]⟩ : PublicKey) = mW.player2) →
      (⟨[9]⟩ : PublicKey) = mW.turn →
      (0 : Nat) < 3 → (0 : Nat) < 3 → Board.get? mW.board 3 0 0 = some Cell.Empty →
      ∃ m2, mW.make_move ⟨[9]⟩ 0 0 = some (m2, none))) :=
  ⟨by decide, C4_error_precedence mW ⟨[9]⟩ 0 0 (by decide)⟩

/-- C5: the predicate "turn is a participant and winner, if set, is a
participant" holds for every match produced by `Match::new`, is preserved
by every `make_move` call that returns, and once the winner is set or the
board is full every `make_move` call rejects with Finished and leaves the
match unchanged. -/
theorem C5_match_invariant :
    (∀ (id : String) (p1 p2 : PublicKey), ((Match.new id p1 p2).turn = (Match.new id p1 p2).player1 ∨
        (Match.new id p1 p2).turn = (Match.new id p1 p2).player2) ∧
      (∀ w, (Match.new id p1 p2).winner = some w →
        w = (Match.new id p1 p2).player1 ∨ w = (Match.new id p1 p2).player2)) ∧
    (∀ (m : Match) (player : PublicKey) (x y : Nat) (m2 : Match) (r : Option GameError),
      (m.turn = m.player1 ∨ m.turn = m.player2) →
      (∀ w, m.winner = some w → w = m.player1 ∨ w = m.player2) →
      m.make_move player x y = some (m2, r) →
      m2.player1 = m.player1 ∧ m2.player2 = m.player2 ∧
        (m2.turn = m2.player1 ∨ m2.turn = m2.player2) ∧
        (∀ w, m2.winner = some w → w = m2.player1 ∨ w = m2.player2)) ∧
    (∀ (m : Match) (player : PublicKey) (x y : Nat),
      (m.winner ≠ none ∨ (m.board.length = 9 ∧ Board.fullSpec m.board 3)) →
      m.make_move player x y = some (m, some GameError.Finished)) := by
  refine ⟨?_, ?_, ?_⟩
  · intro id p1 p2
    exact ⟨Or.inl rfl, fun w hw => by simp [Match.new] at hw⟩
  · intro m player x y m2 r hturn hwinner hs
    unfold Match.make_move at hs
    split at hs
    · exact absurd hs (by simp)
    next fin heq =>
    split at hs
    · simp only [Option.some.injEq, Prod.mk.injEq] at hs
      obtain ⟨rfl, -⟩ := hs
      exact ⟨rfl, rfl, hturn, hwinner⟩
    next hfin =>
    split at hs
    · simp only [Option.some.injEq, Prod.mk.injEq] at hs
      obtain ⟨rfl, -⟩ := hs
      exact ⟨rfl, rfl, hturn, hwinner⟩
    next hplayer =>
    split at hs
    · simp only [Option.some.injEq, Prod.mk.injEq] at hs
      obtain ⟨rfl, -⟩ := hs
      exact ⟨rfl, rfl, hturn, hwinner⟩
    next hturn_ne =>
    split at hs
    · simp only [Option.some.injEq, Prod.mk.injEq] at hs
      obtain ⟨rfl, -⟩ := hs
      exact ⟨rfl, rfl, hturn, hwinner⟩
    next hxy =>
    split at hs
    · exact absurd hs (by simp)
    next c hc =>
    split at hs
    · simp only [Option.some.injEq, Prod.mk.injEq] at hs
      obtain ⟨rfl, -⟩ := hs
      exact ⟨rfl, rfl, hturn, hwinner⟩
    next hcE =>
    split at hs
    · exact absurd hs (by simp)
    next b2 hset =>
    have hpt : player = m.turn := not_not.mp hturn_ne
    split at hs
    · exact absurd hs (by simp)
    next w hw =>
      simp only [Option.some.injEq, Prod.mk.injEq] at hs
      obtain ⟨rfl, -⟩ := hs
      refine ⟨rfl, rfl, hturn, ?_⟩
      intro w2 hw2
      obtain rfl : player = w2 := Option.some.inj hw2
      rw [hpt]
      exact hturn
    next hw =>
    split at hs
    · exact absurd hs (by simp)
    next full hfull =>
    split at hs
    · simp only [Option.some.injEq, Prod.mk.injEq] at hs
      obtain ⟨rfl, -⟩ := hs
      refine ⟨rfl, rfl, hturn, ?_⟩
      intro w2 hw2
      simp at hw2
    · simp only [Option.some.injEq, Prod.mk.injEq] at hs
      obtain ⟨rfl, -⟩ := hs
      refine ⟨rfl, rfl, ?_, hwinner⟩
      by_cases h1 : m.turn = m.player1
      · rw [if_pos h1]
        exact Or.inr rfl
      · rw [if_neg h1]
        exact Or.inl rfl
  · intro m player x y hterm
    rcases hterm with hw | ⟨hlen, hfull⟩
    · have hws : m.winner.isSome := Option.ne_none_iff_isSome.mp hw
      unfold Match.make_move Match.is_finished
      rw [if_pos hws]
      rfl
    · obtain ⟨fin, hfin, hfiniff⟩ := Match.is_finished_spec hlen
      have : fin = true := hfiniff.mpr (Or.inr hfull)
      subst this
      unfold Match.make_move
      rw [hfin]
      rfl

/-- Witness for C5: the terminal-freeze clause instantiated on a finished
match and a non-participant caller. -/
theorem C5_match_invariant_witness :
    (mWF.winner ≠ none ∨ (mWF.board.length = 9 ∧ Board.fullSpec mWF.board 3)) ∧
    mWF.make_move ⟨[9]⟩ 5 5 = some (mWF, some GameError.Finished) :=
  ⟨Or.inl (by decide),
    C5_match_invariant.2.2 mWF ⟨[9]⟩ 5 5 (Or.inl (by decide))⟩

/-! Helper lemmas about the validation pipeline. -/

lemma ValidationContext.validate_ok_iff (S : List Strategy) (input : ValidationInput) :
    ValidationContext.validate S input = Except.ok () ↔
      ∀ s ∈ S, s input = Except.ok () := by
  induction S with
  | nil => simp [ValidationContext.validate]
  | cons s rest ih =>
    cases hres : s input with
    | error e =>
      have hmatch : ValidationContext.validate (s :: rest) input = Except.error e := by
        unfold ValidationContext.validate
        rw [hres]
      rw [hmatch]
      constructor
      · intro h
        exact Except.noConfusion h
      · intro h
        have hcontr := h s (List.mem_cons_self s rest)
        rw [hres] at hcontr
        exact Except.noConfusion hcontr
    | ok u =>
      cases u
      have hmatch : ValidationContext.validate (s :: rest) input =
          ValidationContext.validate rest input := by
        conv_lhs => rw [ValidationContext.validate]
        rw [hres]
      rw [hmatch, ih, List.forall_mem_cons]
      simp [hres]

lemma ValidationContext.validate_error_iff (S : List Strategy) (input : ValidationInput)
    (e : GameError) :
    ValidationContext.validate S input = Except.error e ↔
      ∃ pre s post, S = pre ++ s :: post ∧ (∀ s2 ∈ pre, s2 input = Except.ok ()) ∧
        s input = Except.error e := by
  induction S with
  | nil =>
    constructor
    · intro h
      exact Except.noConfusion h
    · rintro ⟨pre, s, post, hS, -, -⟩
      cases pre <;> simp at hS
  | cons s rest ih =>
    cases hres : s input with
    | error e2 =>
      have hmatch : ValidationContext.validate (s :: rest) input = Except.error e2 := by
        unfold ValidationContext.validate
        rw [hres]
      rw [hmatch]
      constructor
      · intro h
        obtain rfl : e2 = e := Except.error.inj h
        exact ⟨[], s, rest, rfl, by simp, hres⟩
      · rintro ⟨pre, t, post, hS, hpre, ht⟩
        cases pre with
        | nil =>
          simp only [List.nil_append, List.cons.injEq] at hS
          obtain ⟨rfl, rfl⟩ := hS
          rw [hres] at ht
          exact ht
        | cons p pre2 =>
          simp only [List.cons_append, List.cons.injEq] at hS
          obtain ⟨rfl, -⟩ := hS
          have hcontr := hpre s (by simp)
          rw [hres] at hcontr
          exact Except.noConfusion hcontr
    | ok u =>
      cases u
      have hmatch : ValidationContext.validate (s :: rest) input =
          ValidationContext.validate rest input := by
        conv_lhs => rw [ValidationContext.validate]
        rw [hres]
      rw [hmatch, ih]
      constructor
      · rintro ⟨pre, t, post, rfl, hpre, ht⟩
        refine ⟨s :: pre, t, post, rfl, ?_, ht⟩
        intro s2 hs2
        rcases List.mem_cons.mp hs2 with rfl | hs2
        · exact hres
        · exact hpre s2 hs2
      · rintro ⟨pre, t, post, hS, hpre, ht⟩
        cases pre with
        | nil =>
          simp only [List.nil_append, List.cons.injEq] at hS
          obtain ⟨rfl, rfl⟩ := hS
          rw [hres] at ht
          exact Except.noConfusion ht
        | cons p pre2 =>
          simp only [List.cons_append, List.cons.injEq] at hS
          obtain ⟨rfl, hS2⟩ := hS
          refine ⟨pre2, t, post, hS2, ?_, ht⟩
          intro s2 hs2
          exact hpre s2 (by simp [hs2])

/-- C6: a validation context succeeds iff every held strategy succeeds on
the input; otherwise it returns the error of the first failing strategy in
insertion order; and the result never depends on the strategies after the
first failing one (no later strategy is evaluated). -/
theorem C6_validate_pipeline (S : List Strategy) (input : ValidationInput) :
    (ValidationContext.validate S input = Except.ok () ↔
      ∀ s ∈ S, s input = Except.ok ()) ∧
    (∀ e, ValidationContext.validate S input = Except.error e ↔
      ∃ pre s post, S = pre ++ s :: post ∧ (∀ s2 ∈ pre, s2 input = Except.ok ()) ∧
        s input = Except.error e) ∧
    (∀ (pre : List Strategy) (s : Strategy) (post post2 : List Strategy) (e : GameError),
      S = pre ++ s :: post →
      (∀ s2 ∈ pre, s2 input = Except.ok ()) → s input = Except.error e →
      ValidationContext.validate S input = Except.error e ∧
      ValidationContext.validate (pre ++ s :: post2) input = Except.error e) := by
  refine ⟨ValidationContext.validate_ok_iff S input,
    fun e => ValidationContext.validate_error_iff S input e, ?_⟩
  intro pre s post post2 e hS hpre hs
  subst hS
  exact ⟨(ValidationContext.validate_error_iff _ input e).mpr ⟨pre, s, post, rfl, hpre, hs⟩,
    (ValidationContext.validate_error_iff _ input e).mpr ⟨pre, s, post2, rfl, hpre, hs⟩⟩

lemma allShareIff (f : Coordinate → Nat) (a : Coordinate) (l : List Coordinate) :
    ((a :: l).all fun c => f c == f a) = true ↔
      ∀ c ∈ a :: l, ∀ c2 ∈ a :: l, f c = f c2 := by
  rw [List.all_eq_true]
  constructor
  · intro h c hc c2 hc2
    have h1 := h c hc
    have h2 := h c2 hc2
    rw [beq_iff_eq] at h1 h2
    rw [h1, h2]
  · intro h c hc
    rw [beq_iff_eq]
    exact h c hc a (by simp)

/-- C8: with a present coordinates field, the straight-line strategy
accepts lists of at most one coordinate; for two or more coordinates it
accepts exactly when one but not both of "all share x" and "all share y"
holds, and rejects with an Invalid error otherwise; in particular the
diagonal (0,0),(1,1) is rejected and the column (0,0),(0,1),(0,2) is
accepted. -/
theorem C8_straight_line (input : ValidationInput) (coords : List Coordinate)
    (h : input.coordinates = some coords) :
    (coords.length ≤ 1 → StraightLineValidationStrategy.validate input = Except.ok ()) ∧
    (2 ≤ coords.length →
      ((StraightLineValidationStrategy.validate input = Except.ok ()) ↔
        (((∀ c ∈ coords, ∀ c2 ∈ coords, c.x = c2.x) ∧
            ¬(∀ c ∈ coords, ∀ c2 ∈ coords, c.y = c2.y)) ∨
          (¬(∀ c ∈ coords, ∀ c2 ∈ coords, c.x = c2.x) ∧
            (∀ c ∈ coords, ∀ c2 ∈ coords, c.y = c2.y)))) ∧
      (¬(((∀ c ∈ coords, ∀ c2 ∈ coords, c.x = c2.x) ∧
            ¬(∀ c ∈ coords, ∀ c2 ∈ coords, c.y = c2.y)) ∨
          (¬(∀ c ∈ coords, ∀ c2 ∈ coords, c.x = c2.x) ∧
            (∀ c ∈ coords, ∀ c2 ∈ coords, c.y = c2.y))) →
        StraightLineValidationStrategy.validate input =
          Except.error (GameError.Invalid "ship must be straight (horizontal or vertical)"))) ∧
    StraightLineValidationStrategy.validate
        (ValidationInput.new.with_coordinates [⟨0, 0⟩, ⟨1, 1⟩]) =
      Except.error (GameError.Invalid "ship must be straight (horizontal or vertical)") ∧
    StraightLineValidationStrategy.validate
        (ValidationInput.new.with_coordinates [⟨0, 0⟩, ⟨0, 1⟩, ⟨0, 2⟩]) = Except.ok () := by
  refine ⟨?_, ?_, by rfl, by rfl⟩
  · intro hle
    unfold StraightLineValidationStrategy.validate
    rw [h]
    simp only [if_pos hle]
  · intro h2
    have h1 : ¬ coords.length ≤ 1 := by omega
    obtain ⟨a, l, rfl⟩ : ∃ a l, coords = a :: l := by
      cases coords with
      | nil => simp at h2
      | cons a l => exact ⟨a, l, rfl⟩
    have hval : StraightLineValidationStrategy.validate input =
        (if Bool.xor ((a :: l).all fun c => c.x == a.x)
            ((a :: l).all fun c => c.y == a.y) then Except.ok ()
         else Except.error
           (GameError.Invalid "ship must be straight (horizontal or vertical)")) := by
      unfold StraightLineValidationStrategy.validate
      rw [h]
      simp only [if_neg h1, List.headD_cons]
    rw [hval]
    have hSX := allShareIff (fun c => c.x) a l
    have hSY := allShareIff (fun c => c.y) a l
    cases hx : ((a :: l).all fun c => c.x == a.x) with
    | true =>
      cases hy : ((a :: l).all fun c => c.y == a.y) with
      | true =>
        simp only [Bool.xor_self, if_neg (by simp : ¬ (false = true))]
        constructor
        · constructor
          · intro hcontr
            exact Except.noConfusion hcontr
          · rintro (⟨-, hny⟩ | ⟨hnx, -⟩)
            · exact absurd (hSY.mp hy) hny
            · exact absurd (hSX.mp hx) hnx
        · intro _
          trivial
      | false =>
        simp only [Bool.xor_false, if_pos hx]
        constructor
        · constructor
          · intro _
            refine Or.inl ⟨hSX.mp hx, ?_⟩
            intro hall
            rw [hSY.mpr hall] at hy
            exact Bool.noConfusion hy
          · intro _
            rfl
        · intro hno
          exfalso
          apply hno
          refine Or.inl ⟨hSX.mp hx, ?_⟩
          intro hall
          rw [hSY.mpr hall] at hy
          exact Bool.noConfusion hy
    | false =>
      cases hy : ((a :: l).all fun c => c.y == a.y) with
      | true =>
        simp only [Bool.false_xor, if_pos hy]
        constructor
        · constructor
          · intro _
            refine Or.inr ⟨?_, hSY.mp hy⟩
            intro hall
            rw [hSX.mpr hall] at hx
            exact Bool.noConfusion hx
          · intro _
            rfl
        · intro hno
          exfalso
          apply hno
          refine Or.inr ⟨?_, hSY.mp hy⟩
          intro hall
          rw [hSX.mpr hall] at hx
          exact Bool.noConfusion hx
      | false =>
        simp only [Bool.xor_self, Bool.false_xor, if_neg (by simp : ¬ (false = true))]
        constructor
        · constructor
          · intro hcontr
            exact Except.noConfusion hcontr
          · rintro (⟨hax, -⟩ | ⟨-, hay⟩)
            · rw [hSX.mpr hax] at hx
              exact Bool.noConfusion hx
            · rw [hSY.mpr hay] at hy
              exact Bool.noConfusion hy
        · intro _
          trivial

/-- Witness for C8: the straight-line characterization instantiated on the
diagonal (0,0),(1,1). -/
theorem C8_straight_line_witness :
    (ValidationInput.new.with_coordinates [⟨0, 0⟩, ⟨1, 1⟩]).coordinates =
      some [(⟨0, 0⟩ : Coordinate), ⟨1, 1⟩] ∧
    ((([(⟨0, 0⟩ : Coordinate), ⟨1, 1⟩].length ≤ 1) →
      StraightLineValidationStrategy.validate
        (ValidationInput.new.with_coordinates [⟨0, 0⟩, ⟨1, 1⟩]) = Except.ok ()) ∧
    (2 ≤ [(⟨0, 0⟩ : Coordinate), ⟨1, 1⟩].length →
      ((StraightLineValidationStrategy.validate
          (ValidationInput.new.with_coordinates [⟨0, 0⟩, ⟨1, 1⟩]) = Except.ok ()) ↔
        (((∀ c ∈ [(⟨0, 0⟩ : Coordinate), ⟨1, 1⟩], ∀ c2 ∈ [(⟨0, 0⟩ : Coordinate), ⟨1, 1⟩],
              c.x = c2.x) ∧
            ¬(∀ c ∈ [(⟨0, 0⟩ : Coordinate), ⟨1, 1⟩], ∀ c2 ∈ [(⟨0, 0⟩ : Coordinate), ⟨1, 1⟩],
              c.y = c2.y)) ∨
          (¬(∀ c ∈ [(⟨0, 0⟩ : Coordinate), ⟨1, 1⟩], ∀ c2 ∈ [(⟨0, 0⟩ : Coordinate), ⟨1, 1⟩],
              c.x = c2.x) ∧
            (∀ c ∈ [(⟨0, 0⟩ : Coordinate), ⟨1, 1⟩], ∀ c2 ∈ [(⟨0, 0⟩ : Coordinate), ⟨1, 1⟩],
              c.y = c2.y)))) ∧
      (¬(((∀ c ∈ [(⟨0, 0⟩ : Coordinate), ⟨1, 1⟩], ∀ c2 ∈ [(⟨0, 0⟩ : Coordinate), ⟨1, 1⟩],
              c.x = c2.x) ∧
            ¬(∀ c ∈ [(⟨0, 0⟩ : Coordinate), ⟨1, 1⟩], ∀ c2 ∈ [(⟨0, 0⟩ : Coordinate), ⟨1, 1⟩],
              c.y = c2.y)) ∨
          (¬(∀ c ∈ [(⟨0, 0⟩ : Coordinate), ⟨1, 1⟩], ∀ c2 ∈ [(⟨0, 0⟩ : Coordinate), ⟨1, 1⟩],
              c.x = c2.x) ∧
            (∀ c ∈ [(⟨0, 0⟩ : Coordinate), ⟨1, 1⟩], ∀ c2 ∈ [(⟨0, 0⟩ : Coordinate), ⟨1, 1⟩],
              c.y = c2.y))) →
        StraightLineValidationStrategy.validate
            (ValidationInput.new.with_coordinates [⟨0, 0⟩, ⟨1, 1⟩]) =
          Except.error (GameError.Invalid "ship must be straight (horizontal or vertical)"))) ∧
    StraightLineValidationStrategy.validate
        (ValidationInput.new.with_coordinates [⟨0, 0⟩, ⟨1, 1⟩]) =
      Except.error (GameError.Invalid "ship must be straight (horizontal or vertical)") ∧
    StraightLineValidationStrategy.validate
        (ValidationInput.new.with_coordinates [⟨0, 0⟩, ⟨0, 1⟩, ⟨0, 2⟩]) = Except.ok ()) :=
  ⟨rfl, C8_straight_line (ValidationInput.new.with_coordinates [⟨0, 0⟩, ⟨1, 1⟩])
    [⟨0, 0⟩, ⟨1, 1⟩] rfl⟩

/-- C9: with a present fleet-composition field, the fleet-composition
strategy accepts exactly the bucket counts (1, 2, 1, 1) for lengths
(2, 3, 4, 5); any deviation is rejected with an Invalid error naming a
wrong bucket, checked in the order 5, 4, 3, 2; in particular (1,2,1,1)
passes and (2,2,1,1) fails naming the 2-length bucket. -/
theorem C9_fleet_composition (input : ValidationInput) (comp : FleetComposition)
    (h : input.fleet_composition = some comp) :
    (FleetCompositionValidationStrategy.validate input = Except.ok () ↔
      (comp.count2 = 1 ∧ comp.count3 = 2 ∧ comp.count4 = 1 ∧ comp.count5 = 1)) ∧
    (comp.count5 ≠ 1 →
      FleetCompositionValidationStrategy.validate input =
        Except.error (GameError.Invalid "need exactly 1 ship of length 5")) ∧
    (comp.count5 = 1 → comp.count4 ≠ 1 →
      FleetCompositionValidationStrategy.validate input =
        Except.error (GameError.Invalid "need exactly 1 ship of length 4")) ∧
    (comp.count5 = 1 → comp.count4 = 1 → comp.count3 ≠ 2 →
      FleetCompositionValidationStrategy.validate input =
        Except.error (GameError.Invalid "need exactly 2 ships of length 3")) ∧
    (comp.count5 = 1 → comp.count4 = 1 → comp.count3 = 2 → comp.count2 ≠ 1 →
      FleetCompositionValidationStrategy.validate input =
        Except.error (GameError.Invalid "need exactly 1 ship of length 2")) ∧
    FleetCompositionValidationStrategy.validate
      (ValidationInput.new.with_fleet_composition ⟨1, 2, 1, 1⟩) = Except.ok () ∧
    FleetCompositionValidationStrategy.validate
        (ValidationInput.new.with_fleet_composition ⟨2, 2, 1, 1⟩) =
      Except.error (GameError.Invalid "need exactly 1 ship of length 2") := by
  have hval : FleetCompositionValidationStrategy.validate input =
      (if comp.count5 ≠ 1 then
        Except.error (GameError.Invalid "need exactly 1 ship of length 5")
      else if comp.count4 ≠ 1 then
        Except.error (GameError.Invalid "need exactly 1 ship of length 4")
      else if comp.count3 ≠ 2 then
        Except.error (GameError.Invalid "need exactly 2 ships of length 3")
      else if comp.count2 ≠ 1 then
        Except.error (GameError.Invalid "need exactly 1 ship of length 2")
      else Except.ok ()) := by
    unfold FleetCompositionValidationStrategy.validate
    rw [h]
  refine ⟨?_, ?_, ?_, ?_, ?_, by rfl, by rfl⟩
  · rw [hval]
    by_cases h5 : comp.count5 = 1
    · by_cases h4 : comp.count4 = 1
      · by_cases h3 : comp.count3 = 2
        · by_cases h2 : comp.count2 = 1
          · simp [h5, h4, h3, h2]
          · simp [h5, h4, h3, h2]
        · simp [h5, h4, h3]
      · simp [h5, h4]
    · simp [h5]
  · intro h5
    rw [hval, if_pos h5]
  · intro h5 h4
    rw [hval, if_neg (by simp [h5]), if_pos h4]
  · intro h5 h4 h3
    rw [hval, if_neg (by simp [h5]), if_neg (by simp [h4]), if_pos h3]
  · intro h5 h4 h3 h2
    rw [hval, if_neg (by simp [h5]), if_neg (by simp [h4]), if_neg (by simp [h3]),
      if_pos h2]

/-- Witness for C9: the characterization instantiated on the deviating
composition (2, 2, 1, 1). -/
theorem C9_fleet_composition_witness :
    (ValidationInput.new.with_fleet_composition ⟨2, 2, 1, 1⟩).fleet_composition =
      some (⟨2, 2, 1, 1⟩ : FleetComposition) ∧
    ((FleetCompositionValidationStrategy.validate
        (ValidationInput.new.with_fleet_composition ⟨2, 2, 1, 1⟩) = Except.ok () ↔
      ((2 : Nat) = 1 ∧ (2 : Nat) = 2 ∧ (1 : Nat) = 1 ∧ (1 : Nat) = 1)) ∧
    ((1 : Nat) ≠ 1 →
      FleetCompositionValidationStrategy.validate
        (ValidationInput.new.with_fleet_composition ⟨2, 2, 1, 1⟩) =
        Except.error (GameError.Invalid "need exactly 1 ship of length 5")) ∧
    ((1 : Nat) = 1 → (1 : Nat) ≠ 1 →
      FleetCompositionValidationStrategy.validate
        (ValidationInput.new.with_fleet_composition ⟨2, 2, 1, 1⟩) =
        Except.error (GameError.Invalid "need exactly 1 ship of length 4")) ∧
    ((1 : Nat) = 1 → (1 : Nat) = 1 → (2 : Nat) ≠ 2 →
      FleetCompositionValidationStrategy.validate
        (ValidationInput.new.with_fleet_composition ⟨2, 2, 1, 1⟩) =
        Except.error (GameError.Invalid "need exactly 2 ships of length 3")) ∧
    ((1 : Nat) = 1 → (1 : Nat) = 1 → (2 : Nat) = 2 → (2 : Nat) ≠ 1 →
      FleetCompositionValidationStrategy.validate
        (ValidationInput.new.with_fleet_composition ⟨2, 2, 1, 1⟩) =
        Except.error (GameError.Invalid "need exactly 1 ship of length 2")) ∧
    FleetCompositionValidationStrategy.validate
      (ValidationInput.new.with_fleet_composition ⟨1, 2, 1, 1⟩) = Except.ok () ∧
    FleetCompositionValidationStrategy.validate
        (ValidationInput.new.with_fleet_composition ⟨2, 2, 1, 1⟩) =
      Except.error (GameError.Invalid "need exactly 1 ship of length 2")) :=
  ⟨rfl, C9_fleet_composition (ValidationInput.new.with_fleet_composition ⟨2, 2, 1, 1⟩)
    ⟨2, 2, 1, 1⟩ rfl⟩

/-- C10: the adjacency strategy is not an unconditional no-op — it rejects
with an Invalid error when the board field is absent, rejects with an
Invalid error when the board is present but the coordinates field is
absent, and returns Ok whenever both fields are present (the size field is
never required). -/
theorem C10_adjacency_field_checks (input : ValidationInput) :
    (input.board = none →
      AdjacencyValidationStrategy.validate input =
        Except.error (GameError.Invalid "board required for adjacency validation")) ∧
    (input.board ≠ none → input.coordinates = none →
      AdjacencyValidationStrategy.validate input =
        Except.error (GameError.Invalid "coordinates required for adjacency validation")) ∧
    (input.board ≠ none → input.coordinates ≠ none →
      AdjacencyValidationStrategy.validate input = Except.ok ()) := by
  refine ⟨?_, ?_, ?_⟩
  · intro hb
    unfold AdjacencyValidationStrategy.validate
    rw [hb]
  · intro hb hc
    obtain ⟨b, hb2⟩ := Option.ne_none_iff_exists.mp hb
    unfold AdjacencyValidationStrategy.validate
    rw [← hb2, hc]
  · intro hb hc
    obtain ⟨b, hb2⟩ := Option.ne_none_iff_exists.mp hb
    obtain ⟨c, hc2⟩ := Option.ne_none_iff_exists.mp hc
    unfold AdjacencyValidationStrategy.validate
    rw [← hb2, ← hc2]

/-- Witness for C10: the field checks instantiated on an input holding a
board and one coordinate but no size. -/
theorem C10_adjacency_field_checks_witness :
    (((ValidationInput.new.with_board (Board.new_zeroed 3)).with_coordinates
          [⟨0, 0⟩]).board = none →
      AdjacencyValidationStrategy.validate
          ((ValidationInput.new.with_board (Board.new_zeroed 3)).with_coordinates
            [⟨0, 0⟩]) =
        Except.error (GameError.Invalid "board required for adjacency validation")) ∧
    (((ValidationInput.new.with_board (Board.new_zeroed 3)).with_coordinates
          [⟨0, 0⟩]).board ≠ none →
      ((ValidationInput.new.with_board (Board.new_zeroed 3)).with_coordinates
          [⟨0, 0⟩]).coordinates = none →
      AdjacencyValidationStrategy.validate
          ((ValidationInput.new.with_board (Board.new_zeroed 3)).with_coordinates
            [⟨0, 0⟩]) =
        Except.error (GameError.Invalid "coordinates required for adjacency validation")) ∧
    (((ValidationInput.new.with_board (Board.new_zeroed 3)).with_coordinates
          [⟨0, 0⟩]).board ≠ none →
      ((ValidationInput.new.with_board (Board.new_zeroed 3)).with_coordinates
          [⟨0, 0⟩]).coordinates ≠ none →
      AdjacencyValidationStrategy.validate
          ((ValidationInput.new.with_board (Board.new_zeroed 3)).with_coordinates
            [⟨0, 0⟩]) = Except.ok ()) :=
  C10_adjacency_field_checks
    ((ValidationInput.new.with_board (Board.new_zeroed 3)).with_coordinates [⟨0, 0⟩])

/-- C7 counterexample: on the empty size-0 board, `check_winner` does not
complete with the answer "no winner" — its main-diagonal check reads cell
(0, 0) unconditionally, an out-of-range access (the panic value `none` of
the model), so the claim that both calls complete without out-of-range
access is false. -/
theorem C7_counterexample :
    ¬ (Board.is_full ([] : Board) 0 = some true ∧
       Board.check_winner ([] : Board) 0 = some none) := by
  decide

/-- C7 amended: with size 0 and a zero-length board, `is_full` returns
true without reading any cell, but `check_winner` panics (modelled as
`none`): its main-diagonal check unconditionally reads cell (0, 0), which
is out of range on the empty board. -/
theorem C7_size_zero :
    Board.is_full ([] : Board) 0 = some true ∧
      Board.check_winner ([] : Board) 0 = none := by
  decide

/-- Witness for C6: the pipeline characterization instantiated on the
two-strategy list whose first member (adjacency) fails on the empty input
bag. -/
theorem C6_validate_pipeline_witness :
    (ValidationContext.validate
        [AdjacencyValidationStrategy.validate, StraightLineValidationStrategy.validate]
        ValidationInput.new = Except.ok () ↔
      ∀ s ∈ [AdjacencyValidationStrategy.validate, StraightLineValidationStrategy.validate],
        s ValidationInput.new = Except.ok ()) ∧
    (∀ e, ValidationContext.validate
        [AdjacencyValidationStrategy.validate, StraightLineValidationStrategy.validate]
        ValidationInput.new = Except.error e ↔
      ∃ pre s post,
        [AdjacencyValidationStrategy.validate, StraightLineValidationStrategy.validate] =
          pre ++ s :: post ∧
        (∀ s2 ∈ pre, s2 ValidationInput.new = Except.ok ()) ∧
        s ValidationInput.new = Except.error e) ∧
    (∀ (pre : List Strategy) (s : Strategy) (post post2 : List Strategy) (e : GameError),
      [AdjacencyValidationStrategy.validate, StraightLineValidationStrategy.validate] =
        pre ++ s :: post →
      (∀ s2 ∈ pre, s2 ValidationInput.new = Except.ok ()) →
      s ValidationInput.new = Except.error e →
      ValidationContext.validate
          [AdjacencyValidationStrategy.validate, StraightLineValidationStrategy.validate]
          ValidationInput.new = Except.error e ∧
        ValidationContext.validate (pre ++ s :: post2) ValidationInput.new =
          Except.error e) :=
  C6_validate_pipeline
    [AdjacencyValidationStrategy.validate, StraightLineValidationStrategy.validate]
    ValidationInput.new
